import Mathlib

/-!
Verification of the nomyo-js secure-completion client.

This file gives a shallow embedding of the client's core code
(src/core/crypto/utils.ts, encryption.ts, rsa.ts, src/core/memory/secure.ts,
node.ts) and proves/refutes the frozen claims about it.

Modelling conventions:
* JS byte buffers (`ArrayBuffer` viewed through `Uint8Array`) are `List Nat`
  whose elements are below 256 (stated as hypotheses or enforced via `% 256`);
* JS strings that are manipulated character by character (PEM text) are
  `List Char`; other strings are Lean `String`;
* platform primitives (Web Crypto `subtle`, `JSON.parse`, the network, the
  CSPRNG) are fields of an abstract `Runtime` structure: the repository calls
  them but does not implement them, so theorems about round-trips take the
  platform's documented contract as an explicit hypothesis;
* `async` functions that can throw are `Except JsError`; `try/catch` becomes
  a `match` on the `Except` value; a `finally` block becomes unconditional
  post-processing.
-/

/-! ## Byte/codec utilities (src/core/crypto/utils.ts) -/

/-- The standard base64 alphabet, as used by `btoa`/`atob` and
`Buffer.toString('base64')`. -/
def b64alphabet : List Char :=
  ['A','B','C','D','E','F','G','H','I','J','K','L','M','N','O','P',
   'Q','R','S','T','U','V','W','X','Y','Z','a','b','c','d','e','f',
   'g','h','i','j','k','l','m','n','o','p','q','r','s','t','u','v',
   'w','x','y','z','0','1','2','3','4','5','6','7','8','9','+','/']

/-- Base64 digit for a 6-bit value. -/
def encodeDigit (n : Nat) : Char := b64alphabet.getD n '?'

/-- Inverse base64 digit lookup; `none` on characters outside the alphabet. -/
def decodeDigit (c : Char) : Option Nat :=
  let i := b64alphabet.indexOf c
  if i < 64 then some i else none

/-- `arrayBufferToBase64` (utils.ts): standard base64 of a byte sequence,
processing three bytes into four digits, with `=` padding. -/
def b64encode : List Nat → List Char
  | [] => []
  | [a] => [encodeDigit (a / 4), encodeDigit (a % 4 * 16), '=', '=']
  | [a, b] => [encodeDigit (a / 4), encodeDigit (a % 4 * 16 + b / 16),
               encodeDigit (b % 16 * 4), '=']
  | a :: b :: c :: rest =>
      encodeDigit (a / 4) :: encodeDigit (a % 4 * 16 + b / 16) ::
      encodeDigit (b % 16 * 4 + c / 64) :: encodeDigit (c % 64) :: b64encode rest

/-- `base64ToArrayBuffer` (utils.ts): base64 decoding; `none` models the
`InvalidCharacterError` thrown by `atob` on malformed input. -/
def b64decode : List Char → Option (List Nat)
  | [] => some []
  | c1 :: c2 :: c3 :: c4 :: rest =>
      if c3 = '=' then
        if c4 = '=' ∧ rest = [] then
          match decodeDigit c1, decodeDigit c2 with
          | some d1, some d2 => some [d1 * 4 + d2 / 16]
          | _, _ => none
        else none
      else if c4 = '=' then
        if rest = [] then
          match decodeDigit c1, decodeDigit c2, decodeDigit c3 with
          | some d1, some d2, some d3 =>
              some [(d1 * 4 + d2 / 16), (d2 % 16 * 16 + d3 / 4)]
          | _, _, _ => none
        else none
      else
        match decodeDigit c1, decodeDigit c2, decodeDigit c3, decodeDigit c4,
              b64decode rest with
        | some d1, some d2, some d3, some d4, some tail =>
            some ((d1 * 4 + d2 / 16) :: (d2 % 16 * 16 + d3 / 4) ::
                  (d3 % 4 * 64 + d4) :: tail)
        | _, _, _, _, _ => none
  | _ => none

/-- A character that base64 encoding can emit: an alphabet digit or padding. -/
def goodB64Char (c : Char) : Prop := c ∈ b64alphabet ∨ c = '='

/-- The ASCII core of the JS regex `\s` character class, as used by
`pemToArrayBuffer`'s whitespace stripping.  (The Unicode space characters
also matched by `\s` cannot occur in PEM text built by `arrayBufferToPem`.) -/
def isJsSpace (c : Char) : Bool :=
  c == ' ' || c == '\t' || c == '\n' || c == '\r' || c == '\x0b' || c == '\x0c'

/-! ## PEM conversion (src/core/crypto/utils.ts) -/

/-- The `type` argument of `pemToArrayBuffer` / `arrayBufferToPem`
(the string `'PUBLIC' | 'PRIVATE'`). -/
inductive PemType
  | pub
  | priv
deriving DecidableEq

def pemTypeWord : PemType → String
  | .pub => "PUBLIC"
  | .priv => "PRIVATE"

/-- The template string built by both PEM helpers. -/
def pemHeader (t : PemType) : List Char :=
  ("-----BEGIN " ++ pemTypeWord t ++ " KEY-----").toList

def pemFooter (t : PemType) : List Char :=
  ("-----END " ++ pemTypeWord t ++ " KEY-----").toList

/-- The `base64.match(/.{1,64}/g)` chunking: split into runs of at most 64
characters (an empty input yields no chunks, matching `match` returning
`null` and the code falling back to the empty string). -/
def chunk64 (l : List Char) : List (List Char) :=
  if l = [] then [] else l.take 64 :: chunk64 (l.drop 64)
termination_by l.length
decreasing_by
  rename_i hne
  have : 0 < l.length := List.length_pos.mpr hne
  simp [List.length_drop]
  omega

/-- `.join('\n')` over the chunks. -/
def joinNl : List (List Char) → List Char
  | [] => []
  | [x] => x
  | x :: y :: rest => x ++ '\n' :: joinNl (y :: rest)

/-- `arrayBufferToPem` (utils.ts): base64-encode, wrap to 64 columns, and
surround with the BEGIN/END lines. -/
def arrayBufferToPem (buffer : List Nat) (t : PemType) : List Char :=
  pemHeader t ++ '\n' :: joinNl (chunk64 (b64encode buffer)) ++ '\n' :: pemFooter t

/-- JS `String.prototype.replace` with a (non-empty) string pattern:
replace the first occurrence only. -/
def replaceFirst : List Char → List Char → List Char → List Char
  | [], _, _ => []
  | x :: xs, pat, r =>
      if pat.isPrefixOf (x :: xs) then r ++ (x :: xs).drop pat.length
      else x :: replaceFirst xs pat r

/-- `pemToArrayBuffer` (utils.ts): strip the header, the footer and all
whitespace, then base64-decode.  `none` models the exception thrown on
invalid base64. -/
def pemToArrayBuffer (pem : List Char) (t : PemType) : Option (List Nat) :=
  b64decode ((replaceFirst (replaceFirst pem (pemHeader t) []) (pemFooter t) []).filter
    (fun c => !isJsSpace c))

/-! ## Errors (src/errors.ts) -/

/-- The `name` of a thrown JS error object (each error class sets
`this.name` in its constructor). -/
inductive ErrName
  | plainError
  | securityError
  | apiConnectionError
  | apiError
  | authenticationError
  | invalidRequestError
  | rateLimitError
  | serverError
deriving DecidableEq

/-- A thrown JS error: its class tag, `message`, and (for `APIError` and
subclasses) the HTTP status code it carries. -/
structure JsError where
  name : ErrName
  message : String
  statusCode : Option Nat
deriving DecidableEq

def mkError (m : String) : JsError := ⟨.plainError, m, none⟩

def mkSecurityError (m : String) : JsError := ⟨.securityError, m, none⟩

def mkConnectionError (m : String) : JsError := ⟨.apiConnectionError, m, none⟩

/-! ## UTF-8 encoding (`TextEncoder`, utils.ts `stringToArrayBuffer`) -/

def utf8EncodeChar (c : Char) : List Nat :=
  let n := c.toNat
  if n < 128 then [n]
  else if n < 2048 then [192 + n / 64, 128 + n % 64]
  else if n < 65536 then [224 + n / 4096, 128 + n / 64 % 64, 128 + n % 64]
  else [240 + n / 262144, 128 + n / 4096 % 64, 128 + n / 64 % 64, 128 + n % 64]

/-- `stringToArrayBuffer` (utils.ts): UTF-8 bytes of a string. -/
def stringToArrayBuffer (s : String) : List Nat :=
  (s.toList.map utf8EncodeChar).flatten

/-! ## Randomness (`crypto.getRandomValues`, utils.ts `generateRandomBytes`) -/

/-- `generateRandomBytes(length)`: fill a `Uint8Array` from the CSPRNG.
The CSPRNG is modelled as an arbitrary byte stream `rho`; `% 256` reflects
that a `Uint8Array` holds bytes. -/
def generateRandomBytes (rho : Nat → Nat) (n : Nat) : List Nat :=
  (List.range n).map (fun i => rho i % 256)

/-! ## Secure memory (src/core/memory/node.ts, src/core/memory/secure.ts) -/

/-- `ProtectionInfo` (src/types/crypto.ts). -/
structure ProtectionInfo where
  canLock : Bool
  isPlatformSecure : Bool
  method : String
  details : String
deriving DecidableEq

/-- `NodeSecureMemory.zeroMemory`: `new Uint8Array(data).fill(0)`. -/
def zeroMemory (data : List Nat) : List Nat := data.map (fun _ => 0)

/-- `NodeSecureMemory.getProtectionInfo` (node.ts). -/
def NodeSecureMemory.getProtectionInfo : ProtectionInfo :=
  ⟨false, false, "zero-only",
   "Node.js environment (pure JS): memory locking not available without native addon. " ++
   "Using immediate zeroing only. " ++
   "For enhanced security, consider implementing the optional native addon (see native/ directory)."⟩

/-- Observable outcome of one `SecureByteContext.use` call: the value (or
exception) produced, the final contents of the backing buffer, and how many
times the secure-memory provider's `zeroMemory` ran on it. -/
structure UseOutcome (α : Type) where
  result : Except JsError α
  buffer : List Nat
  zeroCalls : Nat

/-- `SecureByteContext.use` (secure.ts):
`try { return await fn(this.data) } finally { if (this.useSecure) zeroMemory(this.data) }`.
The `finally` clause runs whether `fn` resolves or rejects, so it is applied
to both `Except` outcomes alike; it zeroes only when `useSecure` is set. -/
def SecureByteContext.use {α : Type} (useSecure : Bool) (data : List Nat)
    (fn : List Nat → Except JsError α) : UseOutcome α :=
  let r := fn data
  if useSecure then ⟨r, zeroMemory data, 1⟩ else ⟨r, data, 0⟩

/-! ## The abstract JS/Web-Crypto platform

The repository calls into `crypto.subtle`, `JSON.parse`/`JSON.stringify`,
`TextDecoder`, `encodeURIComponent`, the Node `https` module and the Node
`fs` module, but implements none of them.  They are modelled as fields of a
`Runtime` record over abstract key/payload types; theorems that depend on a
primitive's documented behaviour (e.g. AES-GCM round-trip) take that
behaviour as an explicit hypothesis on the record. -/

/-- `HttpResponse` (src/core/http/client.ts), headers omitted (unused by the
embedded code paths). -/
structure HttpResponse where
  statusCode : Nat
  body : List Nat

/-- A network request issued through the HTTP client; used to state that the
insecure-channel check fires before any request. -/
inductive NetEvent
  | get (url : String)
  | post (url : String)
deriving DecidableEq

/-- The in-memory key state of `KeyManager` (src/core/crypto/keys.ts):
`publicKey?`, `privateKey?`, `publicKeyPem?`. -/
structure KeyStore (RsaPub RsaPriv : Type) where
  publicKey : Option RsaPub
  privateKey : Option RsaPriv
  publicKeyPem : Option String

/-- `KeyManager.hasKeys`: `!!(this.privateKey && this.publicKey)`. -/
def KeyStore.hasKeys {RsaPub RsaPriv : Type} (ks : KeyStore RsaPub RsaPriv) : Bool :=
  ks.privateKey.isSome && ks.publicKey.isSome

/-- Shape view of `JSON.parse`d package bytes, as far as `decryptResponse`
inspects them: each field is `some` exactly when the JS `in` operator finds
it on the parsed object. -/
structure EncryptedPayloadView where
  ciphertext : Option String
  nonce : Option String

structure PackageData where
  version : Option String
  algorithm : Option String
  encrypted_payload : Option EncryptedPayloadView
  encrypted_aes_key : Option String
  processed_at : Option Nat

/-- The object returned by `decryptResponse`: the parsed response plus the
`_metadata` fields the code attaches. -/
structure DecryptedResponse (Resp : Type) where
  body : Resp
  payload_id : String
  processed_at : Option Nat
  is_encrypted : Bool
  encryption_algorithm : Option String

/-- `KeyGenOptions` (src/types/client.ts). -/
structure KeyGenOptions where
  keySize : Option Nat
  saveToFile : Option Bool
  keyDir : Option String
  password : Option String

/-- The options type of `SecureCompletionClient.generateKeys` (node.ts):
`saveToFile? keyDir? password?` — note: no `keySize` member. -/
structure ClientGenOptions where
  saveToFile : Option Bool
  keyDir : Option String
  password : Option String

/-- The ambient JS platform (Web Crypto, JSON, network, CSPRNG, fs). -/
structure Runtime (AesKey RsaPub RsaPriv Kdk Payload Resp : Type) where
  aesGenerateKey : AesKey
  aesExportKey : AesKey → List Nat
  aesImportKeyRaw : List Nat → AesKey
  aesGcmEncrypt : AesKey → List Nat → List Nat → List Nat
  aesGcmDecrypt : AesKey → List Nat → List Nat → Except String (List Nat)
  rsaGenerateKeyPair : Nat → RsaPub × RsaPriv
  rsaOaepEncrypt : RsaPub → List Nat → Except String (List Nat)
  rsaOaepDecrypt : RsaPriv → List Nat → Except String (List Nat)
  importSpki : List Nat → Except String RsaPub
  exportSpki : RsaPub → List Nat
  importPkcs8 : List Nat → Except String RsaPriv
  exportPkcs8 : RsaPriv → List Nat
  pbkdf2Sha256 : String → List Nat → Nat → Kdk
  aesCbcEncrypt : Kdk → List Nat → List Nat → List Nat
  aesCbcDecrypt : Kdk → List Nat → List Nat → Except String (List Nat)
  stringifyPayload : Payload → String
  parsePackageJson : List Nat → Option PackageData
  parseResponseJson : List Nat → Except String Resp
  parseErrorDetail : List Nat → Option String
  decodeUtf8 : List Nat → String
  encodeURIComponent : String → String
  httpGet : String → Except String HttpResponse
  httpPost : String → List (String × String) → List Nat → Except String HttpResponse
  entropy : Nat → Nat
  fsLoadDefaultKeys : Except String (KeyStore RsaPub RsaPriv)

/-- `arrayBufferToBase64` as a `String`-producing function (utils.ts). -/
def arrayBufferToBase64 (l : List Nat) : String := String.mk (b64encode l)

/-- `base64ToArrayBuffer` on a `String` (utils.ts). -/
def base64ToArrayBuffer (s : String) : Option (List Nat) := b64decode s.toList

section Model

variable {AesKey RsaPub RsaPriv Kdk Payload Resp : Type}

/-! ## Symmetric cipher (src/core/crypto/encryption.ts) -/

/-- Result of `AESEncryption.encrypt`. -/
structure EncryptResult where
  ciphertext : List Nat
  nonce : List Nat
deriving DecidableEq

/-- `AESEncryption.encrypt`: generate a fresh 12-byte nonce from the CSPRNG
inside the call, then AES-256-GCM-encrypt.  `rho` is the CSPRNG stream this
call consumes; there is no nonce parameter. -/
def aesEncrypt (rt : Runtime AesKey RsaPub RsaPriv Kdk Payload Resp)
    (rho : Nat → Nat) (data : List Nat) (key : AesKey) : EncryptResult :=
  let nonce := generateRandomBytes rho 12
  ⟨rt.aesGcmEncrypt key nonce data, nonce⟩

/-- `AESEncryption.decrypt`: AES-256-GCM decrypt, re-throwing any platform
failure with a wrapped message. -/
def aesDecrypt (rt : Runtime AesKey RsaPub RsaPriv Kdk Payload Resp)
    (ciphertext nonce : List Nat) (key : AesKey) : Except JsError (List Nat) :=
  match rt.aesGcmDecrypt key nonce ciphertext with
  | .ok p => .ok p
  | .error m => .error (mkError ("AES-GCM decryption failed: " ++ m))

/-- `AESEncryption.importKey`: rejects any input that is not exactly
32 bytes, then imports the raw key. -/
def aesImportKey (rt : Runtime AesKey RsaPub RsaPriv Kdk Payload Resp)
    (keyData : List Nat) : Except JsError AesKey :=
  if keyData.length ≠ 32 then
    .error (mkError ("Invalid AES key length: expected 32 bytes, got " ++
      toString keyData.length))
  else .ok (rt.aesImportKeyRaw keyData)

/-! ## Asymmetric cipher (src/core/crypto/rsa.ts) -/

/-- `RSAOperations.decryptKey`, wrapping platform failures. -/
def rsaDecryptKey (rt : Runtime AesKey RsaPub RsaPriv Kdk Payload Resp)
    (encryptedKey : List Nat) (privateKey : RsaPriv) : Except JsError (List Nat) :=
  match rt.rsaOaepDecrypt privateKey encryptedKey with
  | .ok p => .ok p
  | .error m => .error (mkError ("RSA-OAEP decryption failed: " ++ m))

/-- `RSAOperations.importPublicKey`: PEM-decode then SPKI-import. -/
def importPublicKey (rt : Runtime AesKey RsaPub RsaPriv Kdk Payload Resp)
    (pem : String) : Except String RsaPub :=
  match pemToArrayBuffer pem.toList .pub with
  | none => .error "InvalidCharacterError: invalid base64"
  | some keyData => rt.importSpki keyData

/-- `RSAOperations.exportPublicKey`: SPKI-export then PEM-encode. -/
def exportPublicKeyPem (rt : Runtime AesKey RsaPub RsaPriv Kdk Payload Resp)
    (pub : RsaPub) : String :=
  String.mk (arrayBufferToPem (rt.exportSpki pub) .pub)

/-- `RSAOperations.encryptPrivateKeyWithPassword`: PBKDF2-HMAC-SHA256
(fresh 16-byte salt, 100000 iterations) derives an AES-256-CBC key; a fresh
16-byte IV; the result is `salt ‖ iv ‖ ciphertext` PEM-wrapped as a
PRIVATE KEY block.  `rho` is the CSPRNG stream; the salt consumes its first
16 bytes and the IV the next 16 (two successive `getRandomValues` calls). -/
def encryptPrivateKeyWithPassword (rt : Runtime AesKey RsaPub RsaPriv Kdk Payload Resp)
    (rho : Nat → Nat) (keyData : List Nat) (password : String) : List Char :=
  let salt := generateRandomBytes rho 16
  let derivedKey := rt.pbkdf2Sha256 password salt 100000
  let iv := generateRandomBytes (fun i => rho (16 + i)) 16
  let encrypted := rt.aesCbcEncrypt derivedKey iv keyData
  arrayBufferToPem (salt ++ iv ++ encrypted) .priv

/-- `RSAOperations.decryptPrivateKeyWithPassword`: PEM-decode, split
`salt(16) ‖ iv(16) ‖ ciphertext`, re-derive the key, decrypt; any CBC
failure surfaces as the generic wrong-password error. -/
def decryptPrivateKeyWithPassword (rt : Runtime AesKey RsaPub RsaPriv Kdk Payload Resp)
    (pem : List Char) (password : String) : Except JsError (List Nat) :=
  match pemToArrayBuffer pem .priv with
  | none => .error (mkError "InvalidCharacterError: invalid base64")
  | some combined =>
    let salt := combined.take 16
    let iv := (combined.drop 16).take 16
    let encrypted := combined.drop 32
    let derivedKey := rt.pbkdf2Sha256 password salt 100000
    match rt.aesCbcDecrypt derivedKey iv encrypted with
    | .ok pt => .ok pt
    | .error _ =>
        .error (mkError "Failed to decrypt private key: invalid password or corrupted key")

/-- `RSAOperations.exportPrivateKey`: PKCS8-export; password-wrap if a
password is given, else plain PEM. -/
def exportPrivateKey (rt : Runtime AesKey RsaPub RsaPriv Kdk Payload Resp)
    (rho : Nat → Nat) (key : RsaPriv) (password : Option String) : List Char :=
  let exported := rt.exportPkcs8 key
  match password with
  | some pw => encryptPrivateKeyWithPassword rt rho exported pw
  | none => arrayBufferToPem exported .priv

/-- `RSAOperations.importPrivateKey`: password-unwrap (or plain PEM-decode),
then PKCS8-import. -/
def importPrivateKey (rt : Runtime AesKey RsaPub RsaPriv Kdk Payload Resp)
    (pem : List Char) (password : Option String) : Except JsError RsaPriv :=
  match password with
  | some pw =>
    match decryptPrivateKeyWithPassword rt pem pw with
    | .error e => .error e
    | .ok keyData =>
      match rt.importPkcs8 keyData with
      | .ok k => .ok k
      | .error m => .error (mkError m)
  | none =>
    match pemToArrayBuffer pem .priv with
    | none => .error (mkError "InvalidCharacterError: invalid base64")
    | some keyData =>
      match rt.importPkcs8 keyData with
      | .ok k => .ok k
      | .error m => .error (mkError m)

end Model

/-! ## Client configuration and constructor (src/core/SecureCompletionClient.ts i.e. node.ts source, src/types/client.ts) -/

/-- `ClientConfig` (src/types/client.ts); `none` models an absent optional
member. -/
structure ClientConfig where
  routerUrl : String
  allowHttp : Option Bool
  secureMemory : Option Bool
  keySize : Option Nat
  apiKey : Option String

/-- The state a constructed `SecureCompletionClient` actually stores: the
constructor destructures `keySize` but never assigns it to a field. -/
structure Client where
  routerUrl : String
  allowHttp : Bool
  secureMemory : Bool
deriving DecidableEq

/-- JS `String.prototype.startsWith`, via the underlying character list
(kept kernel-reducible). -/
def strStartsWith (s pre : String) : Bool := pre.toList.isPrefixOf s.toList

/-- JS test for a trailing slash, via the underlying character list. -/
def strEndsWith (s suf : String) : Bool := suf.toList.isSuffixOf s.toList

/-- `routerUrl.replace(/\/$/, '')`: strip one trailing slash. -/
def stripTrailingSlash (s : String) : String :=
  if strEndsWith s "/" then String.mk (s.toList.dropLast) else s

inductive LogEvent
  | log (msg : String)
  | warn (msg : String)
deriving DecidableEq

def httpInsecureWarn : String :=
  "⚠️  WARNING: Using HTTP instead of HTTPS. " ++
  "This is INSECURE and should only be used for local development. " ++
  "Man-in-the-middle attacks are possible!"

def httpModeLog : String := "HTTP mode enabled for local development (INSECURE)"

def memoryProtectionLog : String :=
  "Memory protection: " ++ NodeSecureMemory.getProtectionInfo.method ++
  " (" ++ NodeSecureMemory.getProtectionInfo.details ++ ")"

/-- The `SecureCompletionClient` constructor: applies defaults, strips the
trailing slash, and — for a non-https URL — only logs (a warning when
`allowHttp` is false, a note when it is true); it contains no `throw`, so
construction always succeeds. -/
def mkClient (config : ClientConfig) : Except JsError (Client × List LogEvent) :=
  let routerUrl := stripTrailingSlash config.routerUrl
  let allowHttp := (config.allowHttp).getD false
  let secureMemory := (config.secureMemory).getD true
  let schemeLogs :=
    if ¬ strStartsWith routerUrl "https://" then
      if ¬ allowHttp then [LogEvent.warn httpInsecureWarn]
      else [LogEvent.log httpModeLog]
    else []
  .ok (⟨routerUrl, allowHttp, secureMemory⟩,
       schemeLogs ++ [LogEvent.log memoryProtectionLog])

section Orchestrator

variable {AesKey RsaPub RsaPriv Kdk Payload Resp : Type}

/-! ## Key manager (src/core/crypto/keys.ts) and EnsureIdentity (node.ts) -/

/-- `KeyManager.generateKeys`: defaults `keySize` to 4096, generates the
pair, and exports the public PEM.  The second component records the modulus
length actually passed to `rsa.generateKeyPair` (file persistence is a side
effect outside this model). -/
def KeyManager.generateKeys (rt : Runtime AesKey RsaPub RsaPriv Kdk Payload Resp)
    (options : KeyGenOptions) : KeyStore RsaPub RsaPriv × Nat :=
  let keySize := options.keySize.getD 4096
  let kp := rt.rsaGenerateKeyPair keySize
  (⟨some kp.1, some kp.2, some (exportPublicKeyPem rt kp.1)⟩, keySize)

/-- `SecureCompletionClient.generateKeys`: forwards to the key manager with
`{ keySize: 4096, ...options }` — the spread cannot override `keySize`
because `ClientGenOptions` has no such member. -/
def SecureCompletionClient.generateKeys
    (rt : Runtime AesKey RsaPub RsaPriv Kdk Payload Resp) (_c : Client)
    (options : ClientGenOptions) : KeyStore RsaPub RsaPriv × Nat :=
  KeyManager.generateKeys rt
    ⟨some 4096, options.saveToFile, options.keyDir, options.password⟩

/-- `SecureCompletionClient.ensureKeys` (EnsureIdentity): keep existing keys;
else try the default on-disk location; else generate (saving to
`client_keys`).  The second component records the modulus length when
generation happened. -/
def ensureKeys (rt : Runtime AesKey RsaPub RsaPriv Kdk Payload Resp) (c : Client)
    (ks : KeyStore RsaPub RsaPriv) : KeyStore RsaPub RsaPriv × Option Nat :=
  if ks.hasKeys then (ks, none)
  else
    match rt.fsLoadDefaultKeys with
    | .ok ks2 => (ks2, none)
    | .error _ =>
        let g := SecureCompletionClient.generateKeys rt c
          ⟨some true, some "client_keys", none⟩
        (g.fst, some g.snd)

/-- `KeyManager.getPublicKeyPEM`. -/
def getPublicKeyPEM (rt : Runtime AesKey RsaPub RsaPriv Kdk Payload Resp)
    (ks : KeyStore RsaPub RsaPriv) : Except JsError String :=
  match ks.publicKeyPem with
  | some p => .ok p
  | none =>
    match ks.publicKey with
    | none => .error (mkError "No public key available. Generate or load keys first.")
    | some pub => .ok (exportPublicKeyPem rt pub)

/-! ## Public-key fetch (node.ts `fetchServerPublicKey`) -/

def fetchHttpsErrorMsg : String :=
  "Server public key must be fetched over HTTPS to prevent MITM attacks. " ++
  "For local development, initialize with allowHttp=true: " ++
  "new SecureChatCompletion(\x7b baseUrl: \"http://localhost:12434\", allowHttp: true \x7d)"

/-- The network part of `fetchServerPublicKey` (runs only after the channel
check): `GET /pki/public_key`, validate the PEM by importing it, wrap any
error in `APIConnectionError`. -/
def fetchServerPublicKeyNet (rt : Runtime AesKey RsaPub RsaPriv Kdk Payload Resp)
    (c : Client) : Except JsError String × List NetEvent :=
  let url := c.routerUrl ++ "/pki/public_key"
  let events := [NetEvent.get url]
  match rt.httpGet url with
  | .error m =>
      (.error (mkConnectionError ("Failed to fetch server's public key: " ++ m)), events)
  | .ok resp =>
    if resp.statusCode = 200 then
      let serverPublicKey := rt.decodeUtf8 resp.body
      match importPublicKey rt serverPublicKey with
      | .error _ =>
          (.error (mkConnectionError
            "Failed to fetch server's public key: Server returned invalid public key format"),
           events)
      | .ok _ => (.ok serverPublicKey, events)
    else
      (.error (mkConnectionError
        ("Failed to fetch server's public key: Failed to fetch server's public key: HTTP " ++
         toString resp.statusCode)), events)

/-- `fetchServerPublicKey`: refuse a non-https URL without `allowHttp`
(throwing `SecurityError` with no request issued), otherwise fetch.  The
second component is the list of network requests issued. -/
def fetchServerPublicKey (rt : Runtime AesKey RsaPub RsaPriv Kdk Payload Resp)
    (c : Client) : Except JsError String × List NetEvent :=
  if ¬ strStartsWith c.routerUrl "https://" then
    if ¬ c.allowHttp then (.error (mkSecurityError fetchHttpsErrorMsg), [])
    else fetchServerPublicKeyNet rt c
  else fetchServerPublicKeyNet rt c

/-! ## Envelope construction (node.ts `performEncryption`, `encryptPayload`) -/

/-- `JSON.stringify` of the package object literal in `performEncryption`:
fields serialize in insertion order, and base64 strings need no escaping. -/
def serializePackage (ciphertextB64 nonceB64 encryptedAesKeyB64 : String) : String :=
  "\x7b\"version\":\"1.0\",\"algorithm\":\"hybrid-aes256-rsa4096\"," ++
  "\"encrypted_payload\":\x7b\"ciphertext\":\"" ++ ciphertextB64 ++
  "\",\"nonce\":\"" ++ nonceB64 ++
  "\"\x7d,\"encrypted_aes_key\":\"" ++ encryptedAesKeyB64 ++
  "\",\"key_algorithm\":\"RSA-OAEP-SHA256\",\"payload_algorithm\":\"AES-256-GCM\"\x7d"

/-- `performEncryption`: generate an AES key, export its raw bytes, and — in
a secure context over those bytes — encrypt the payload, fetch and import
the server public key, RSA-wrap the AES key bytes, and serialize the
envelope to UTF-8 bytes. -/
def performEncryption (rt : Runtime AesKey RsaPub RsaPriv Kdk Payload Resp)
    (c : Client) (payloadBytes : List Nat) : Except JsError (List Nat) :=
  let aesKey := rt.aesGenerateKey
  let aesKeyBytes := rt.aesExportKey aesKey
  (SecureByteContext.use c.secureMemory aesKeyBytes (fun protectedAesKey =>
    let enc := aesEncrypt rt rt.entropy payloadBytes aesKey
    match (fetchServerPublicKey rt c).fst with
    | .error e => .error e
    | .ok serverPublicKeyPem =>
      match importPublicKey rt serverPublicKeyPem with
      | .error m => .error (mkError m)
      | .ok serverPublicKey =>
        match rt.rsaOaepEncrypt serverPublicKey protectedAesKey with
        | .error m => .error (mkError m)
        | .ok encryptedAesKey =>
            .ok (stringToArrayBuffer (serializePackage
              (arrayBufferToBase64 enc.ciphertext)
              (arrayBufferToBase64 enc.nonce)
              (arrayBufferToBase64 encryptedAesKey))))).result

/-- `encryptPayload`: ensure keys, serialize the payload to UTF-8 JSON,
enforce the 10 MiB ceiling, then run `performEncryption` (inside a secure
context over the payload bytes when `secureMemory` is set). -/
def encryptPayload (rt : Runtime AesKey RsaPub RsaPriv Kdk Payload Resp)
    (c : Client) (ks : KeyStore RsaPub RsaPriv) (payload : Payload) :
    Except JsError (List Nat) :=
  let _ks1 := (ensureKeys rt c ks).fst
  let payloadJson := rt.stringifyPayload payload
  let payloadBytes := stringToArrayBuffer payloadJson
  if payloadBytes.length > 10 * 1024 * 1024 then
    .error (mkError ("Payload too large: " ++ toString payloadBytes.length ++
      " bytes (max: " ++ toString (10 * 1024 * 1024) ++ ")"))
  else if c.secureMemory then
    (SecureByteContext.use true payloadBytes
      (fun protectedPayload => performEncryption rt c protectedPayload)).result
  else performEncryption rt c payloadBytes

/-! ## Response decryption (node.ts `decryptResponse`) -/

def decryptionFailedMsg : String :=
  "Decryption failed: integrity check or authentication failed"

/-- The body of `decryptResponse`'s single `try` block, operating on the
already-validated envelope fields: base64-decode the wrapped key, fetch the
local private key, RSA-unwrap, import the AES key (inside a secure context),
base64-decode ciphertext and nonce, AES-GCM-decrypt, and parse the plaintext
(inside a secure context), then attach the `_metadata` fields. -/
def decryptAttempt (rt : Runtime AesKey RsaPub RsaPriv Kdk Payload Resp)
    (c : Client) (ks : KeyStore RsaPub RsaPriv)
    (eak ct nonceStr : String) (alg : Option String) (processedAt : Option Nat)
    (payloadId : String) : Except JsError (DecryptedResponse Resp) :=
  match base64ToArrayBuffer eak with
  | none => .error (mkError "InvalidCharacterError: invalid base64")
  | some encryptedAesKey =>
    match ks.privateKey with
    | none => .error (mkError "No private key available. Generate or load keys first.")
    | some privateKey =>
      match rsaDecryptKey rt encryptedAesKey privateKey with
      | .error e => .error e
      | .ok aesKeyBytes =>
        match (SecureByteContext.use c.secureMemory aesKeyBytes (fun protectedAesKey =>
          match aesImportKey rt protectedAesKey with
          | .error e => .error e
          | .ok aesKey =>
            match base64ToArrayBuffer ct with
            | none => .error (mkError "InvalidCharacterError: invalid base64")
            | some ciphertext =>
              match base64ToArrayBuffer nonceStr with
              | none => .error (mkError "InvalidCharacterError: invalid base64")
              | some nonce =>
                match aesDecrypt rt ciphertext nonce aesKey with
                | .error e => .error e
                | .ok plaintext =>
                  (SecureByteContext.use c.secureMemory plaintext
                    (fun protectedPlaintext =>
                      match rt.parseResponseJson protectedPlaintext with
                      | .error m => .error (mkError m)
                      | .ok resp => .ok resp)).result)).result with
        | .error e => .error e
        | .ok resp => .ok ⟨resp, payloadId, processedAt, true, alg⟩

/-- `decryptResponse`: reject empty input, parse the package, check the
required fields (in source order), then run the decryption sequence; any
failure of that sequence is collapsed into the single generic
`SecurityError`. -/
def decryptResponse (rt : Runtime AesKey RsaPub RsaPriv Kdk Payload Resp)
    (c : Client) (ks : KeyStore RsaPub RsaPriv)
    (encryptedResponse : List Nat) (payloadId : String) :
    Except JsError (DecryptedResponse Resp) :=
  if encryptedResponse.length = 0 then .error (mkError "Empty encrypted response")
  else
    match rt.parsePackageJson encryptedResponse with
    | none => .error (mkError "Invalid encrypted package format: malformed JSON")
    | some pkg =>
      match pkg.version with
      | none => .error (mkError "Missing required field in encrypted package: version")
      | some _ =>
      match pkg.algorithm with
      | none => .error (mkError "Missing required field in encrypted package: algorithm")
      | some _ =>
      match pkg.encrypted_payload with
      | none => .error (mkError "Missing required field in encrypted package: encrypted_payload")
      | some ep =>
      match pkg.encrypted_aes_key with
      | none => .error (mkError "Missing required field in encrypted package: encrypted_aes_key")
      | some eak =>
      match ep.ciphertext with
      | none => .error (mkError "Missing field in encrypted_payload: ciphertext")
      | some ct =>
      match ep.nonce with
      | none => .error (mkError "Missing field in encrypted_payload: nonce")
      | some nonceStr =>
        match decryptAttempt rt c ks eak ct nonceStr pkg.algorithm
            pkg.processed_at payloadId with
        | .ok r => .ok r
        | .error _ => .error (mkSecurityError decryptionFailedMsg)

/-! ## HTTP error translation and request sending (node.ts) -/

/-- `handleErrorResponse`: translate a non-200 status into the error
taxonomy, with the JSON `detail` field (or `'Unknown error'`). -/
def handleErrorResponse (rt : Runtime AesKey RsaPub RsaPriv Kdk Payload Resp)
    (resp : HttpResponse) : JsError :=
  let detail := (rt.parseErrorDetail resp.body).getD "Unknown error"
  match resp.statusCode with
  | 400 => ⟨.invalidRequestError, "Bad request: " ++ detail, some 400⟩
  | 401 => ⟨.authenticationError,
            "Invalid API key or authentication failed: " ++ detail, some 401⟩
  | 404 => ⟨.apiError, "Endpoint not found: " ++ detail, some 404⟩
  | 429 => ⟨.rateLimitError, "Rate limit exceeded: " ++ detail, some 429⟩
  | 500 => ⟨.serverError, "Server error: " ++ detail, some 500⟩
  | s => ⟨.apiError, "Unexpected status code: " ++ toString s, some s⟩

/-- `sendSecureRequest`: ensure keys, encrypt the payload, build the
protocol headers, POST to `/v1/chat/secure_completion`; a 200 response is
decrypted, a non-200 response raises the translated taxonomy error — but
that `throw` sits inside the same `try` whose `catch` re-wraps every
`Error` into `APIConnectionError`. -/
def sendSecureRequest (rt : Runtime AesKey RsaPub RsaPriv Kdk Payload Resp)
    (c : Client) (ks : KeyStore RsaPub RsaPriv) (payload : Payload)
    (payloadId : String) (apiKey : Option String) :
    Except JsError (DecryptedResponse Resp) :=
  let ks1 := (ensureKeys rt c ks).fst
  match encryptPayload rt c ks1 payload with
  | .error e => .error e
  | .ok encryptedPayload =>
  match getPublicKeyPEM rt ks1 with
  | .error e => .error e
  | .ok publicKeyPem =>
    let headers := [("X-Payload-ID", payloadId),
                    ("X-Public-Key", rt.encodeURIComponent publicKeyPem),
                    ("Content-Type", "application/octet-stream")] ++
      (match apiKey with
       | some k => [("Authorization", "Bearer " ++ k)]
       | none => [])
    let url := c.routerUrl ++ "/v1/chat/secure_completion"
    let attempt : Except JsError (DecryptedResponse Resp) :=
      match rt.httpPost url headers encryptedPayload with
      | .error m => .error (mkError m)
      | .ok resp =>
        if resp.statusCode = 200 then decryptResponse rt c ks1 resp.body payloadId
        else .error (handleErrorResponse rt resp)
    match attempt with
    | .ok r => .ok r
    | .error e =>
      if e.message = "Request timeout" then
        .error (mkConnectionError "Connection to server timed out")
      else
        .error (mkConnectionError ("Failed to connect to router: " ++ e.message))

end Orchestrator

/-! ## Concrete fixtures used by witnesses and counterexamples -/

/-- A concrete runtime instantiation of the abstract platform, used to
evaluate the embedded client code on closed inputs. -/
def rtBase : Runtime Unit Unit Unit Bool Unit Unit where
  aesGenerateKey := ()
  aesExportKey := fun _ => []
  aesImportKeyRaw := fun _ => ()
  aesGcmEncrypt := fun _ _ d => d
  aesGcmDecrypt := fun _ _ c => .ok c
  rsaGenerateKeyPair := fun _ => ((), ())
  rsaOaepEncrypt := fun _ _ => .ok []
  rsaOaepDecrypt := fun _ _ => .ok []
  importSpki := fun _ => .ok ()
  exportSpki := fun _ => []
  importPkcs8 := fun l => if l = [1, 2, 3] then .ok () else .error "DataError"
  exportPkcs8 := fun _ => [1, 2, 3]
  pbkdf2Sha256 := fun pw _ _ => pw == "password"
  aesCbcEncrypt := fun dk _ x => (if dk then 1 else 0) :: x
  aesCbcDecrypt := fun dk _ c =>
    match c with
    | n :: rest => if n = (if dk then 1 else 0) then .ok rest else .error "bad"
    | [] => .error "bad"
  stringifyPayload := fun _ => ""
  parsePackageJson := fun _ => none
  parseResponseJson := fun _ => .ok ()
  parseErrorDetail := fun _ => none
  decodeUtf8 := fun _ => "-----BEGIN PUBLIC KEY-----\n\n-----END PUBLIC KEY-----"
  encodeURIComponent := fun s => s
  httpGet := fun _ => .ok ⟨200, []⟩
  httpPost := fun _ _ _ => .ok ⟨401, []⟩
  entropy := fun _ => 0
  fsLoadDefaultKeys := .error "ENOENT"

/-- A parsed package with all required fields present. -/
def pkgFix : PackageData :=
  ⟨some "1.0", some "hybrid-aes256-rsa4096", some ⟨some "", some ""⟩, some "", none⟩

/-- Runtime whose RSA-OAEP unwrap fails, and whose package parser returns
`pkgFix`. -/
def rtRsaFail : Runtime Unit Unit Unit Bool Unit Unit :=
  { rtBase with
    parsePackageJson := fun _ => some pkgFix
    rsaOaepDecrypt := fun _ _ => .error "OperationError" }

def httpsClient : Client := ⟨"https://r", false, true⟩

def plainHttpClient : Client := ⟨"http://localhost:12434", false, true⟩

def noMemClient : Client := ⟨"https://r", false, false⟩

def stockedKeys : KeyStore Unit Unit := ⟨some (), some (), some "PEM"⟩

def emptyKeys : KeyStore Unit Unit := ⟨none, none, none⟩

/-- A non-https configuration with `allowHttp` left false. -/
def badConfig : ClientConfig := ⟨"http://localhost:12434", some false, some true, some 4096, none⟩

/-- An https configuration explicitly requesting 2048-bit keys. -/
def cfg2048 : ClientConfig := ⟨"https://api.nomyo.ai:12434", none, none, some 2048, none⟩

/-- The envelope bytes `encryptPayload` produces under `rtBase`. -/
def c5out : List Nat :=
  stringToArrayBuffer (serializePackage
    (arrayBufferToBase64 [])
    (arrayBufferToBase64 (generateRandomBytes (fun _ => 0) 12))
    (arrayBufferToBase64 []))

/-! ## Helper lemmas -/

theorem decodeDigit_encodeDigit (d : Nat) (h : d < 64) :
    decodeDigit (encodeDigit d) = some d := by
  have h64 : ∀ x : Fin 64, decodeDigit (encodeDigit x.val) = some x.val := by decide
  exact h64 ⟨d, h⟩

theorem encodeDigit_ne_pad (d : Nat) (h : d < 64) : encodeDigit d ≠ '=' := by
  have h64 : ∀ x : Fin 64, encodeDigit x.val ≠ '=' := by decide
  exact h64 ⟨d, h⟩

theorem b64_roundtrip : ∀ l : List Nat, (∀ b ∈ l, b < 256) →
    b64decode (b64encode l) = some l
  | [], _ => by rfl
  | [a], h => by
      have ha : a < 256 := h a (by simp)
      have h1 : a / 4 < 64 := by omega
      have h2 : a % 4 * 16 < 64 := by omega
      simp [b64encode, b64decode, decodeDigit_encodeDigit _ h1,
        decodeDigit_encodeDigit _ h2]
      omega
  | [a, b], h => by
      have ha : a < 256 := h a (by simp)
      have hb : b < 256 := h b (by simp)
      have h1 : a / 4 < 64 := by omega
      have h2 : a % 4 * 16 + b / 16 < 64 := by omega
      have h3 : b % 16 * 4 < 64 := by omega
      simp [b64encode, b64decode, if_neg (encodeDigit_ne_pad _ h3),
        decodeDigit_encodeDigit _ h1, decodeDigit_encodeDigit _ h2,
        decodeDigit_encodeDigit _ h3]
      constructor
      · omega
      · omega
  | a :: b :: c :: rest, h => by
      have ha : a < 256 := h a (by simp)
      have hb : b < 256 := h b (by simp)
      have hc : c < 256 := h c (by simp)
      have h1 : a / 4 < 64 := by omega
      have h2 : a % 4 * 16 + b / 16 < 64 := by omega
      have h3 : b % 16 * 4 + c / 64 < 64 := by omega
      have h4 : c % 64 < 64 := by omega
      have ih := b64_roundtrip rest (fun x hx => h x (by simp [hx]))
      simp [b64encode, b64decode, if_neg (encodeDigit_ne_pad _ h3),
        if_neg (encodeDigit_ne_pad _ h4),
        decodeDigit_encodeDigit _ h1, decodeDigit_encodeDigit _ h2,
        decodeDigit_encodeDigit _ h3, decodeDigit_encodeDigit _ h4, ih]
      refine ⟨by omega, by omega, by omega⟩

theorem encodeDigit_mem (d : Nat) (h : d < 64) : encodeDigit d ∈ b64alphabet := by
  have h64 : ∀ x : Fin 64, encodeDigit x.val ∈ b64alphabet := by decide
  exact h64 ⟨d, h⟩

theorem b64encode_good : ∀ l : List Nat, (∀ b ∈ l, b < 256) →
    ∀ c ∈ b64encode l, goodB64Char c
  | [], _ => by simp [b64encode]
  | [a], h => by
      have ha : a < 256 := h a (by simp)
      have h1 : a / 4 < 64 := by omega
      have h2 : a % 4 * 16 < 64 := by omega
      intro c hc
      simp [b64encode] at hc
      rcases hc with rfl | rfl | rfl
      · exact Or.inl (encodeDigit_mem _ h1)
      · exact Or.inl (encodeDigit_mem _ h2)
      · exact Or.inr rfl
  | [a, b], h => by
      have ha : a < 256 := h a (by simp)
      have hb : b < 256 := h b (by simp)
      have h1 : a / 4 < 64 := by omega
      have h2 : a % 4 * 16 + b / 16 < 64 := by omega
      have h3 : b % 16 * 4 < 64 := by omega
      intro c hc
      simp [b64encode] at hc
      rcases hc with rfl | rfl | rfl | rfl
      · exact Or.inl (encodeDigit_mem _ h1)
      · exact Or.inl (encodeDigit_mem _ h2)
      · exact Or.inl (encodeDigit_mem _ h3)
      · exact Or.inr rfl
  | a :: b :: c :: rest, h => by
      have ha : a < 256 := h a (by simp)
      have hb : b < 256 := h b (by simp)
      have hc' : c < 256 := h c (by simp)
      have h1 : a / 4 < 64 := by omega
      have h2 : a % 4 * 16 + b / 16 < 64 := by omega
      have h3 : b % 16 * 4 + c / 64 < 64 := by omega
      have h4 : c % 64 < 64 := by omega
      have ih := b64encode_good rest (fun x hx => h x (by simp [hx]))
      intro x hx
      simp [b64encode] at hx
      rcases hx with rfl | rfl | rfl | rfl | hx
      · exact Or.inl (encodeDigit_mem _ h1)
      · exact Or.inl (encodeDigit_mem _ h2)
      · exact Or.inl (encodeDigit_mem _ h3)
      · exact Or.inl (encodeDigit_mem _ h4)
      · exact ih x hx

theorem goodB64Char_not_space {c : Char} (h : goodB64Char c) :
    isJsSpace c = false := by
  have hall : b64alphabet.all (fun c => !isJsSpace c) = true := by decide
  rcases h with h | rfl
  · have := List.all_eq_true.mp hall c h
    simpa using this
  · decide

theorem goodB64Char_ne_dash {c : Char} (h : goodB64Char c) : c ≠ '-' := by
  have hall : b64alphabet.all (fun c => !(c == '-')) = true := by decide
  rcases h with h | rfl
  · have := List.all_eq_true.mp hall c h
    simpa using this
  · decide

theorem replaceFirst_of_prefix (pat s r : List Char) (hne : pat ≠ []) :
    replaceFirst (pat ++ s) pat r = r ++ s := by
  match pat, hne with
  | p :: ps, _ =>
    show replaceFirst (p :: (ps ++ s)) (p :: ps) r = r ++ s
    rw [replaceFirst]
    have hpre : (p :: ps).isPrefixOf (p :: (ps ++ s)) = true :=
      List.isPrefixOf_iff_prefix.mpr (List.prefix_append (p :: ps) s)
    rw [if_pos hpre]
    show r ++ List.drop (p :: ps).length ((p :: ps) ++ s) = r ++ s
    rw [List.drop_left]

theorem replaceFirst_after (a ps r : List Char) (hc : Char)
    (hmem : hc ∉ a) : replaceFirst (a ++ hc :: ps) (hc :: ps) r = a ++ r := by
  induction a with
  | nil =>
      have := replaceFirst_of_prefix (hc :: ps) [] r (by simp)
      simpa using this
  | cons x xs ih =>
      have hx : x ≠ hc := fun hx => hmem (by simp [hx])
      have hbeq : (hc == x) = false := by
        simp [hx.symm]
      show replaceFirst (x :: (xs ++ hc :: ps)) (hc :: ps) r = x :: (xs ++ r)
      rw [replaceFirst]
      rw [if_neg (by simp [List.isPrefixOf, hbeq])]
      rw [ih (fun hm => hmem (by simp [hm]))]

theorem chunk64_flatten (l : List Char) : (chunk64 l).flatten = l := by
  induction l using chunk64.induct with
  | case1 => simp [chunk64]
  | case2 l hne ih =>
      rw [chunk64, if_neg hne]
      simp [ih, List.take_append_drop]

theorem chunk64_mem (l : List Char) :
    ∀ p ∈ chunk64 l, ∀ c ∈ p, c ∈ l := by
  induction l using chunk64.induct with
  | case1 => simp [chunk64]
  | case2 l hne ih =>
      rw [chunk64, if_neg hne]
      intro p hp c hcp
      rcases List.mem_cons.mp hp with rfl | hp
      · exact List.take_subset _ _ hcp
      · exact List.drop_subset _ _ (ih p hp c hcp)

theorem joinNl_filter (q : Char → Bool) (hq : q '\n' = false) :
    ∀ ls : List (List Char), (joinNl ls).filter q = (ls.flatten).filter q
  | [] => by simp [joinNl]
  | [x] => by simp [joinNl]
  | x :: y :: rest => by
      have ih := joinNl_filter q hq (y :: rest)
      simp [joinNl, List.filter_append, List.filter_cons, hq, ih]

theorem joinNl_mem : ∀ (ls : List (List Char)), ∀ c ∈ joinNl ls,
    c = '\n' ∨ ∃ p ∈ ls, c ∈ p
  | [] => by simp [joinNl]
  | [x] => by
      intro c hc
      exact Or.inr ⟨x, by simp, by simpa [joinNl] using hc⟩
  | x :: y :: rest => by
      intro c hc
      simp only [joinNl, List.mem_append, List.mem_cons] at hc
      rcases hc with hc | hc | hc
      · exact Or.inr ⟨x, by simp, hc⟩
      · exact Or.inl hc
      · rcases joinNl_mem (y :: rest) c hc with h | ⟨p, hp, hcp⟩
        · exact Or.inl h
        · exact Or.inr ⟨p, by simp [List.mem_cons.mp hp], hcp⟩

theorem pemHeader_ne_nil (t : PemType) : pemHeader t ≠ [] := by
  cases t <;> decide

theorem pemFooter_head (t : PemType) : ∃ ps, pemFooter t = '-' :: ps := by
  cases t <;> exact ⟨_, rfl⟩

/-- PEM round-trip: decoding a PEM block built by `arrayBufferToPem`
recovers the original bytes. -/
theorem pem_roundtrip (buffer : List Nat) (t : PemType)
    (h : ∀ b ∈ buffer, b < 256) :
    pemToArrayBuffer (arrayBufferToPem buffer t) t = some buffer := by
  have hgood := b64encode_good buffer h
  obtain ⟨ps, hps⟩ := pemFooter_head t
  have hdash : '-' ∉ ('\n' :: joinNl (chunk64 (b64encode buffer))) ++ ['\n'] := by
    intro hm
    rcases List.mem_append.mp hm with h1 | h2
    · rcases List.mem_cons.mp h1 with hnl | hJ
      · exact absurd hnl (by decide)
      · rcases joinNl_mem _ _ hJ with hnl | ⟨p, hp, hcp⟩
        · exact absurd hnl (by decide)
        · exact goodB64Char_ne_dash (hgood _ (chunk64_mem _ p hp _ hcp)) rfl
    · rcases List.mem_singleton.mp h2 with h3
      exact absurd h3 (by decide)
  have e1 : replaceFirst (arrayBufferToPem buffer t) (pemHeader t) [] =
      ('\n' :: joinNl (chunk64 (b64encode buffer))) ++ ('\n' :: pemFooter t) := by
    have hshape : arrayBufferToPem buffer t = pemHeader t ++
        (('\n' :: joinNl (chunk64 (b64encode buffer))) ++ ('\n' :: pemFooter t)) := by
      simp [arrayBufferToPem]
    rw [hshape, replaceFirst_of_prefix _ _ _ (pemHeader_ne_nil t)]
    simp
  have e2 : replaceFirst
      (('\n' :: joinNl (chunk64 (b64encode buffer))) ++ ('\n' :: pemFooter t))
      (pemFooter t) [] =
      ('\n' :: joinNl (chunk64 (b64encode buffer))) ++ ['\n'] := by
    rw [hps]
    have hsplit : (('\n' :: joinNl (chunk64 (b64encode buffer))) ++ ['\n']) ++
        ('-' :: ps) =
        ('\n' :: joinNl (chunk64 (b64encode buffer))) ++ ('\n' :: '-' :: ps) := by
      simp
    rw [← hsplit, replaceFirst_after _ ps [] '-' hdash]
    simp
  have e3 : ((('\n' :: joinNl (chunk64 (b64encode buffer))) ++ ['\n']).filter
      (fun c => !isJsSpace c)) = b64encode buffer := by
    have hq : (fun c => !isJsSpace c) '\n' = false := by decide
    rw [List.filter_append]
    rw [show List.filter (fun c => !isJsSpace c)
        ('\n' :: joinNl (chunk64 (b64encode buffer))) =
        List.filter (fun c => !isJsSpace c)
        (joinNl (chunk64 (b64encode buffer))) by simp [List.filter_cons, isJsSpace]]
    rw [show List.filter (fun c => !isJsSpace c) ['\n'] = [] by decide]
    rw [joinNl_filter _ hq, chunk64_flatten]
    rw [List.filter_eq_self.mpr
      (fun c hc => by simp [goodB64Char_not_space (hgood c hc)])]
    simp
  rw [pemToArrayBuffer, e1, e2, e3]
  exact b64_roundtrip buffer h

theorem generateRandomBytes_length (rho : Nat → Nat) (n : Nat) :
    (generateRandomBytes rho n).length = n := by
  simp [generateRandomBytes]

theorem generateRandomBytes_lt (rho : Nat → Nat) (n : Nat) :
    ∀ b ∈ generateRandomBytes rho n, b < 256 := by
  intro b hb
  simp only [generateRandomBytes, List.mem_map] at hb
  obtain ⟨i, _, rfl⟩ := hb
  exact Nat.mod_lt _ (by omega)

theorem use_result {α : Type} (useSecure : Bool) (data : List Nat)
    (fn : List Nat → Except JsError α) :
    (SecureByteContext.use useSecure data fn).result = fn data := by
  cases useSecure <;> rfl

/-! ## Claim theorems -/

/-- C2 counterexample: a `SecureByteContext` constructed with
`useSecure = false` (as `node.ts` does whenever the client's `secureMemory`
option is false) runs the inner operation but never invokes `zeroMemory`,
and the backing buffer keeps its contents — refuting the unconditional
claim that `use` always zeroes exactly once. -/
theorem c2_counterexample :
    ¬ ((SecureByteContext.use false [7]
          (fun _ => (Except.ok 0 : Except JsError Nat))).zeroCalls = 1 ∧
       ∀ b ∈ (SecureByteContext.use false [7]
          (fun _ => (Except.ok 0 : Except JsError Nat))).buffer, b = 0) := by
  decide

/-- C2 (amended): when the context is constructed with `useSecure = true`
(the default, and always the case for the payload context), `use` invokes
`zeroMemory` on the buffer exactly once before returning — whether the
inner operation returns a value or throws — and afterwards every byte of
the backing buffer is zero, with the inner outcome passed through. -/
theorem c2_zeroing_guarantee {α : Type} (data : List Nat)
    (fn : List Nat → Except JsError α) :
    (SecureByteContext.use true data fn).result = fn data ∧
    (SecureByteContext.use true data fn).zeroCalls = 1 ∧
    ∀ b ∈ (SecureByteContext.use true data fn).buffer, b = 0 := by
  refine ⟨rfl, rfl, ?_⟩
  intro b hb
  have hbuf : (SecureByteContext.use true data fn).buffer =
      List.map (fun _ => 0) data := rfl
  rw [hbuf, List.mem_map] at hb
  obtain ⟨x, _, hx⟩ := hb
  exact hx.symm

/-- C3: with a non-https router URL and `allowHttp` false,
`fetchServerPublicKey` fails with the `SecurityError` and issues no network
request; otherwise it issues exactly the `GET /pki/public_key` request. -/
theorem c3_channel_enforcement {AesKey RsaPub RsaPriv Kdk Payload Resp : Type}
    (rt : Runtime AesKey RsaPub RsaPriv Kdk Payload Resp) (c : Client) :
    (strStartsWith c.routerUrl "https://" = false → c.allowHttp = false →
      fetchServerPublicKey rt c = (.error (mkSecurityError fetchHttpsErrorMsg), [])) ∧
    (strStartsWith c.routerUrl "https://" = true ∨ c.allowHttp = true →
      (fetchServerPublicKey rt c).snd =
        [NetEvent.get (c.routerUrl ++ "/pki/public_key")]) := by
  have hnet : (fetchServerPublicKeyNet rt c).snd =
      [NetEvent.get (c.routerUrl ++ "/pki/public_key")] := by
    simp only [fetchServerPublicKeyNet]
    cases hg : rt.httpGet (c.routerUrl ++ "/pki/public_key") with
    | error m => simp [hg]
    | ok resp =>
        simp only [hg]
        by_cases h200 : resp.statusCode = 200
        · simp only [if_pos h200]
          cases himp : importPublicKey rt (rt.decodeUtf8 resp.body) with
          | error m => simp [himp]
          | ok k => simp [himp]
        · simp [if_neg h200]
  constructor
  · intro hs ha
    simp [fetchServerPublicKey, hs, ha]
  · intro h
    rcases h with hs | ha
    · simp [fetchServerPublicKey, hs, hnet]
    · by_cases hs : strStartsWith c.routerUrl "https://" = true
      · simp [fetchServerPublicKey, hs, hnet]
      · simp [fetchServerPublicKey, Bool.of_not_eq_true hs, ha, hnet]

/-- C3 witness: the channel check fires (with no request) on a plain-http
client, and the GET is issued for an https client. -/
theorem c3_witness :
    fetchServerPublicKey rtBase ⟨"http://localhost:12434", false, true⟩ =
      (.error (mkSecurityError fetchHttpsErrorMsg), []) ∧
    (fetchServerPublicKey rtBase httpsClient).snd =
      [NetEvent.get ("https://r" ++ "/pki/public_key")] :=
  ⟨(c3_channel_enforcement rtBase ⟨"http://localhost:12434", false, true⟩).1
      (by decide) rfl,
   (c3_channel_enforcement rtBase httpsClient).2 (Or.inl (by decide))⟩

/-- C6: the repository's AES layer round-trips — given the platform's
AES-GCM decrypt-of-encrypt contract, `decrypt` applied to the ciphertext
and nonce returned by `encrypt` under the same key recovers the plaintext
exactly, for any payload up to the size ceiling. -/
theorem c6_roundtrip {AesKey RsaPub RsaPriv Kdk Payload Resp : Type}
    (rt : Runtime AesKey RsaPub RsaPriv Kdk Payload Resp)
    (rho : Nat → Nat) (P : List Nat) (k : AesKey)
    (hgcm : ∀ key nonce data,
      rt.aesGcmDecrypt key nonce (rt.aesGcmEncrypt key nonce data) = .ok data)
    (_hsize : P.length ≤ 10 * 1024 * 1024) :
    aesDecrypt rt (aesEncrypt rt rho P k).ciphertext
      (aesEncrypt rt rho P k).nonce k = .ok P := by
  simp [aesEncrypt, aesDecrypt, hgcm]

/-- C6 witness: the round-trip evaluated at a concrete runtime satisfying
the AES-GCM contract and a concrete plaintext. -/
theorem c6_witness :
    aesDecrypt rtBase (aesEncrypt rtBase (fun _ => 0) [1, 2, 3] ()).ciphertext
      (aesEncrypt rtBase (fun _ => 0) [1, 2, 3] ()).nonce () = .ok [1, 2, 3] :=
  c6_roundtrip rtBase (fun _ => 0) [1, 2, 3] () (fun _ _ _ => rfl) (by norm_num)

/-- C7: `encrypt` returns as nonce exactly the 12 bytes freshly drawn from
the CSPRNG stream inside the call — the nonce has length 12, and is
independent of the data and key arguments (the signature accepts no
caller-supplied nonce), so a caller cannot force nonce reuse. -/
theorem c7_nonce_fresh {AesKey RsaPub RsaPriv Kdk Payload Resp : Type}
    (rt : Runtime AesKey RsaPub RsaPriv Kdk Payload Resp)
    (rho : Nat → Nat) (data : List Nat) (key : AesKey) :
    (aesEncrypt rt rho data key).nonce = generateRandomBytes rho 12 ∧
    (aesEncrypt rt rho data key).nonce.length = 12 ∧
    ∀ (data2 : List Nat) (key2 : AesKey),
      (aesEncrypt rt rho data2 key2).nonce = (aesEncrypt rt rho data key).nonce := by
  refine ⟨rfl, ?_, fun _ _ => rfl⟩
  show (generateRandomBytes rho 12).length = 12
  exact generateRandomBytes_length rho 12

/-- C1: for any encrypted response whose package parses and carries all the
required fields, if the decryption sequence (base64-unwrap of the key, RSA
unwrap, AES import, AES-GCM decrypt, plaintext parse) fails at any step,
`decryptResponse` fails with exactly the single generic `SecurityError`
'Decryption failed: integrity check or authentication failed', never with a
step-revealing error. -/
theorem c1_decrypt_collapses {AesKey RsaPub RsaPriv Kdk Payload Resp : Type}
    (rt : Runtime AesKey RsaPub RsaPriv Kdk Payload Resp)
    (c : Client) (ks : KeyStore RsaPub RsaPriv)
    (encryptedResponse : List Nat) (payloadId : String)
    (pkg : PackageData) (ep : EncryptedPayloadView)
    (v a eak ct nonceStr : String)
    (hne : encryptedResponse ≠ [])
    (hparse : rt.parsePackageJson encryptedResponse = some pkg)
    (hv : pkg.version = some v) (ha : pkg.algorithm = some a)
    (hep : pkg.encrypted_payload = some ep)
    (heak : pkg.encrypted_aes_key = some eak)
    (hct : ep.ciphertext = some ct) (hnn : ep.nonce = some nonceStr)
    (e : JsError)
    (hfail : decryptAttempt rt c ks eak ct nonceStr pkg.algorithm
        pkg.processed_at payloadId = (.error e : Except JsError (DecryptedResponse Resp))) :
    decryptResponse rt c ks encryptedResponse payloadId =
      (.error (mkSecurityError decryptionFailedMsg) :
        Except JsError (DecryptedResponse Resp)) := by
  have hlen : ¬ encryptedResponse.length = 0 := by
    simpa [List.length_eq_zero] using hne
  rw [ha] at hfail
  simp only [decryptResponse, if_neg hlen, hparse, hv, ha, hep, heak, hct, hnn, hfail]

/-- C1 witness: a concrete response whose RSA unwrap fails is answered with
the single generic SecurityError. -/
theorem c1_witness :
    decryptResponse rtRsaFail httpsClient stockedKeys [123] "pid" =
      (.error (mkSecurityError decryptionFailedMsg) :
        Except JsError (DecryptedResponse Unit)) :=
  c1_decrypt_collapses rtRsaFail httpsClient stockedKeys [123] "pid"
    pkgFix ⟨some "", some ""⟩ "1.0" "hybrid-aes256-rsa4096" "" "" ""
    (by decide) rfl rfl rfl rfl rfl rfl rfl
    (mkError "RSA-OAEP decryption failed: OperationError") rfl

/-- C9 counterexample: a configuration with a plain-http routerUrl and
`allowHttp = false` is accepted by the constructor — it returns a client
(only logging a warning), refuting 'is not accepted at construction'. -/
theorem c9_counterexample :
    mkClient badConfig =
      .ok (⟨"http://localhost:12434", false, true⟩,
           [LogEvent.warn httpInsecureWarn, LogEvent.log memoryProtectionLog]) ∧
    strStartsWith "http://localhost:12434" "https://" = false := by
  constructor
  · rfl
  · decide

/-- C9 (amended): the constructor never rejects any configuration — for a
non-https routerUrl without `allowHttp` it only emits the console warning —
and the secure-transport invariant is instead enforced at use:
`fetchServerPublicKey` on such a client fails with `SecurityError` before
any network request is issued. -/
theorem c9_enforced_at_fetch {AesKey RsaPub RsaPriv Kdk Payload Resp : Type}
    (rt : Runtime AesKey RsaPub RsaPriv Kdk Payload Resp) (cfg : ClientConfig) :
    (mkClient cfg).isOk = true ∧
    ∀ c logs, mkClient cfg = .ok (c, logs) →
      strStartsWith c.routerUrl "https://" = false → c.allowHttp = false →
        (LogEvent.warn httpInsecureWarn ∈ logs ∧
         fetchServerPublicKey rt c = (.error (mkSecurityError fetchHttpsErrorMsg), [])) := by
  constructor
  · rfl
  · intro c logs hmk hs ha
    simp only [mkClient, Except.ok.injEq, Prod.mk.injEq] at hmk
    obtain ⟨hc, hlogs⟩ := hmk
    subst hc
    subst hlogs
    dsimp only at hs ha
    constructor
    · simp [hs, ha]
    · simp [fetchServerPublicKey, hs, ha]

/-- C9 witness: the amended claim evaluated on the concrete bad
configuration. -/
theorem c9_witness :
    LogEvent.warn httpInsecureWarn ∈
      [LogEvent.warn httpInsecureWarn, LogEvent.log memoryProtectionLog] ∧
    fetchServerPublicKey rtBase ⟨"http://localhost:12434", false, true⟩ =
      (.error (mkSecurityError fetchHttpsErrorMsg), []) :=
  (c9_enforced_at_fetch rtBase badConfig).2
    ⟨"http://localhost:12434", false, true⟩
    [LogEvent.warn httpInsecureWarn, LogEvent.log memoryProtectionLog]
    rfl (by decide) rfl

/-- C10: the `keySize` configuration member is dropped at construction and
key generation always requests a 4096-bit pair: for every configuration
(including `keySize = 2048`), `SecureCompletionClient.generateKeys` passes
4096 to `rsa.generateKeyPair`, and so does the generate branch of
`ensureKeys` (EnsureIdentity). -/
theorem c10_keysize_always_4096 {AesKey RsaPub RsaPriv Kdk Payload Resp : Type}
    (rt : Runtime AesKey RsaPub RsaPriv Kdk Payload Resp)
    (cfg : ClientConfig) (c : Client) (logs : List LogEvent)
    (opts : ClientGenOptions) (ks : KeyStore RsaPub RsaPriv)
    (_hmk : mkClient cfg = .ok (c, logs)) :
    (SecureCompletionClient.generateKeys rt c opts).snd = 4096 ∧
    (ks.hasKeys = false → ∀ m, rt.fsLoadDefaultKeys = .error m →
      (ensureKeys rt c ks).snd = some 4096) := by
  constructor
  · rfl
  · intro hnk m hfs
    simp [ensureKeys, hnk, hfs, SecureCompletionClient.generateKeys,
      KeyManager.generateKeys]

/-- C10 witness: a client built from a `keySize = 2048` configuration still
generates a 4096-bit pair, both directly and through `ensureKeys`. -/
theorem c10_witness :
    (SecureCompletionClient.generateKeys rtBase
      ⟨"https://api.nomyo.ai:12434", false, true⟩ ⟨none, none, none⟩).snd = 4096 ∧
    (ensureKeys rtBase ⟨"https://api.nomyo.ai:12434", false, true⟩ emptyKeys).snd
      = some 4096 :=
  ⟨(c10_keysize_always_4096 rtBase cfg2048 ⟨"https://api.nomyo.ai:12434", false, true⟩
      [LogEvent.log memoryProtectionLog] ⟨none, none, none⟩ emptyKeys rfl).1,
   (c10_keysize_always_4096 rtBase cfg2048 ⟨"https://api.nomyo.ai:12434", false, true⟩
      [LogEvent.log memoryProtectionLog] ⟨none, none, none⟩ emptyKeys rfl).2
      rfl "ENOENT" rfl⟩

/-- C4 (code bug): `handleErrorResponse` does translate a 401 into
`AuthenticationError`, but `sendSecureRequest` throws that error inside its
own `try`, whose `catch` re-wraps every `Error` — so the error actually
surfaced to the caller is an `APIConnectionError`, not the taxonomy error
the spec promises. -/
theorem c4_taxonomy_error_wrapped :
    sendSecureRequest rtBase noMemClient stockedKeys () "pid-1" none =
      (.error (mkConnectionError
        "Failed to connect to router: Invalid API key or authentication failed: Unknown error") :
        Except JsError (DecryptedResponse Unit)) ∧
    handleErrorResponse rtBase ⟨401, []⟩ =
      ⟨.authenticationError, "Invalid API key or authentication failed: Unknown error",
       some 401⟩ := by
  constructor
  · rfl
  · rfl

theorem performEncryption_ok {AesKey RsaPub RsaPriv Kdk Payload Resp : Type}
    (rt : Runtime AesKey RsaPub RsaPriv Kdk Payload Resp) (c : Client)
    (payloadBytes out : List Nat)
    (h : performEncryption rt c payloadBytes = .ok out) :
    ∃ ct eak, out = stringToArrayBuffer (serializePackage
      (arrayBufferToBase64 ct)
      (arrayBufferToBase64 (generateRandomBytes rt.entropy 12))
      (arrayBufferToBase64 eak)) := by
  unfold performEncryption at h
  rw [use_result] at h
  dsimp only [aesEncrypt] at h
  split at h
  · exact absurd h (by simp)
  · split at h
    · exact absurd h (by simp)
    · split at h
      · exact absurd h (by simp)
      · rw [Except.ok.injEq] at h
        exact ⟨_, _, h.symm⟩

/-- C5: every successful `encryptPayload` output is the UTF-8 bytes of the
JSON envelope with exactly the fields
`version = '1.0'`, `algorithm = 'hybrid-aes256-rsa4096'`,
`encrypted_payload.ciphertext`/`nonce` (base64),
`encrypted_aes_key` (base64), `key_algorithm = 'RSA-OAEP-SHA256'` and
`payload_algorithm = 'AES-256-GCM'` (all fixed by `serializePackage`), and
the nonce field base64-decodes to exactly the 12 freshly drawn random
bytes. -/
theorem c5_envelope {AesKey RsaPub RsaPriv Kdk Payload Resp : Type}
    (rt : Runtime AesKey RsaPub RsaPriv Kdk Payload Resp) (c : Client)
    (ks : KeyStore RsaPub RsaPriv) (payload : Payload) (out : List Nat)
    (h : encryptPayload rt c ks payload = .ok out) :
    ∃ ct eak, out = stringToArrayBuffer (serializePackage
      (arrayBufferToBase64 ct)
      (arrayBufferToBase64 (generateRandomBytes rt.entropy 12))
      (arrayBufferToBase64 eak)) ∧
    (generateRandomBytes rt.entropy 12).length = 12 ∧
    base64ToArrayBuffer (arrayBufferToBase64 (generateRandomBytes rt.entropy 12)) =
      some (generateRandomBytes rt.entropy 12) := by
  have hb64 : base64ToArrayBuffer (arrayBufferToBase64 (generateRandomBytes rt.entropy 12)) =
      some (generateRandomBytes rt.entropy 12) := by
    have := b64_roundtrip (generateRandomBytes rt.entropy 12)
      (generateRandomBytes_lt _ _)
    simpa [base64ToArrayBuffer, arrayBufferToBase64, String.toList] using this
  unfold encryptPayload at h
  dsimp only at h
  split at h
  · exact absurd h (by simp)
  · by_cases hcm : c.secureMemory
    · rw [if_pos hcm, use_result] at h
      obtain ⟨ct, eak, hout⟩ := performEncryption_ok rt c _ out h
      exact ⟨ct, eak, hout, generateRandomBytes_length _ _, hb64⟩
    · rw [if_neg hcm] at h
      obtain ⟨ct, eak, hout⟩ := performEncryption_ok rt c _ out h
      exact ⟨ct, eak, hout, generateRandomBytes_length _ _, hb64⟩

/-- C5 witness: the envelope property evaluated on a concrete successful
encryption. -/
theorem c5_witness :
    ∃ ct eak, c5out = stringToArrayBuffer (serializePackage
      (arrayBufferToBase64 ct)
      (arrayBufferToBase64 (generateRandomBytes rtBase.entropy 12))
      (arrayBufferToBase64 eak)) ∧
    (generateRandomBytes rtBase.entropy 12).length = 12 ∧
    base64ToArrayBuffer (arrayBufferToBase64 (generateRandomBytes rtBase.entropy 12)) =
      some (generateRandomBytes rtBase.entropy 12) :=
  c5_envelope rtBase httpsClient stockedKeys () c5out (by rfl)

theorem take_drop_split (s i ct : List Nat) (hs : s.length = 16) (hi : i.length = 16) :
    (s ++ i ++ ct).take 16 = s ∧ ((s ++ i ++ ct).drop 16).take 16 = i ∧
    (s ++ i ++ ct).drop 32 = ct := by
  have h1 : (s ++ i ++ ct).drop 16 = i ++ ct := by
    rw [List.append_assoc, ← hs, List.drop_left]
  refine ⟨?_, ?_, ?_⟩
  · rw [List.append_assoc, ← hs, List.take_left]
  · rw [h1, ← hi, List.take_left]
  · have h32 : (s ++ i).length = 32 := by simp [hs, hi]
    rw [← h32, List.drop_left]

/-- C8: password-wrapping a private key yields a PEM PRIVATE KEY block whose
decoded bytes are `salt(16) ‖ iv(16) ‖ AES-256-CBC ciphertext` under the key
derived by PBKDF2-HMAC-SHA256 with 100000 iterations; importing it with the
same password recovers the key, and with any other password it fails with
the generic 'Failed to decrypt private key' error.  The platform CBC/KDF
contracts (decrypt-of-encrypt round-trip, wrong-key rejection, distinct
passwords giving distinct derived keys) and byte-ness of `ArrayBuffer`
outputs are explicit hypotheses. -/
theorem c8_password_roundtrip {AesKey RsaPub RsaPriv Kdk Payload Resp : Type}
    (rt : Runtime AesKey RsaPub RsaPriv Kdk Payload Resp)
    (rho : Nat → Nat) (key : RsaPriv) (W : String)
    (hexp : ∀ b ∈ rt.exportPkcs8 key, b < 256)
    (hcbc256 : ∀ dk iv x, (∀ b ∈ x, b < 256) → ∀ b ∈ rt.aesCbcEncrypt dk iv x, b < 256)
    (hdec : ∀ dk iv x, rt.aesCbcDecrypt dk iv (rt.aesCbcEncrypt dk iv x) = .ok x)
    (hwrong : ∀ dk' dk iv x, dk' ≠ dk →
      ∃ m, rt.aesCbcDecrypt dk' iv (rt.aesCbcEncrypt dk iv x) = .error m)
    (hkdf : ∀ W' salt, W' ≠ W →
      rt.pbkdf2Sha256 W' salt 100000 ≠ rt.pbkdf2Sha256 W salt 100000)
    (himp : rt.importPkcs8 (rt.exportPkcs8 key) = .ok key) :
    pemToArrayBuffer (exportPrivateKey rt rho key (some W)) .priv =
      some (generateRandomBytes rho 16 ++ generateRandomBytes (fun i => rho (16 + i)) 16 ++
        rt.aesCbcEncrypt (rt.pbkdf2Sha256 W (generateRandomBytes rho 16) 100000)
          (generateRandomBytes (fun i => rho (16 + i)) 16) (rt.exportPkcs8 key)) ∧
    (generateRandomBytes rho 16).length = 16 ∧
    importPrivateKey rt (exportPrivateKey rt rho key (some W)) (some W) = .ok key ∧
    ∀ W', W' ≠ W → importPrivateKey rt (exportPrivateKey rt rho key (some W)) (some W') =
      .error (mkError "Failed to decrypt private key: invalid password or corrupted key") := by
  have hbytes : ∀ b ∈ generateRandomBytes rho 16 ++ generateRandomBytes (fun i => rho (16 + i)) 16 ++
      rt.aesCbcEncrypt (rt.pbkdf2Sha256 W (generateRandomBytes rho 16) 100000)
        (generateRandomBytes (fun i => rho (16 + i)) 16) (rt.exportPkcs8 key), b < 256 := by
    intro b hb
    simp only [List.append_assoc, List.mem_append] at hb
    rcases hb with hb | hb | hb
    · exact generateRandomBytes_lt _ _ b hb
    · exact generateRandomBytes_lt _ _ b hb
    · exact hcbc256 _ _ _ hexp b hb
  have hpem : exportPrivateKey rt rho key (some W) =
      arrayBufferToPem (generateRandomBytes rho 16 ++
        generateRandomBytes (fun i => rho (16 + i)) 16 ++
        rt.aesCbcEncrypt (rt.pbkdf2Sha256 W (generateRandomBytes rho 16) 100000)
          (generateRandomBytes (fun i => rho (16 + i)) 16) (rt.exportPkcs8 key)) .priv := rfl
  have hdecode : pemToArrayBuffer (exportPrivateKey rt rho key (some W)) .priv =
      some (generateRandomBytes rho 16 ++ generateRandomBytes (fun i => rho (16 + i)) 16 ++
        rt.aesCbcEncrypt (rt.pbkdf2Sha256 W (generateRandomBytes rho 16) 100000)
          (generateRandomBytes (fun i => rho (16 + i)) 16) (rt.exportPkcs8 key)) := by
    rw [hpem]
    exact pem_roundtrip _ _ hbytes
  obtain ⟨htake, hdroptake, hdrop⟩ := take_drop_split
    (generateRandomBytes rho 16) (generateRandomBytes (fun i => rho (16 + i)) 16)
    (rt.aesCbcEncrypt (rt.pbkdf2Sha256 W (generateRandomBytes rho 16) 100000)
      (generateRandomBytes (fun i => rho (16 + i)) 16) (rt.exportPkcs8 key))
    (generateRandomBytes_length _ _) (generateRandomBytes_length _ _)
  refine ⟨hdecode, generateRandomBytes_length _ _, ?_, ?_⟩
  · simp only [importPrivateKey, decryptPrivateKeyWithPassword, hdecode]
    rw [htake, hdroptake, hdrop, hdec]
    simp only [himp]
  · intro W' hW
    obtain ⟨m, hm⟩ := hwrong (rt.pbkdf2Sha256 W' (generateRandomBytes rho 16) 100000)
      (rt.pbkdf2Sha256 W (generateRandomBytes rho 16) 100000)
      (generateRandomBytes (fun i => rho (16 + i)) 16) (rt.exportPkcs8 key)
      (hkdf W' (generateRandomBytes rho 16) hW)
    simp only [importPrivateKey, decryptPrivateKeyWithPassword, hdecode]
    rw [htake, hdroptake, hdrop, hm]

/-- C8 witness: the password round-trip evaluated on a concrete runtime
satisfying the platform contracts, with password `"password"`. -/
theorem c8_witness :
    pemToArrayBuffer (exportPrivateKey rtBase (fun _ => 5) () (some "password")) .priv =
      some (generateRandomBytes (fun _ => 5) 16 ++
        generateRandomBytes (fun i => (fun _ => 5) (16 + i)) 16 ++
        rtBase.aesCbcEncrypt
          (rtBase.pbkdf2Sha256 "password" (generateRandomBytes (fun _ => 5) 16) 100000)
          (generateRandomBytes (fun i => (fun _ => 5) (16 + i)) 16)
          (rtBase.exportPkcs8 ())) ∧
    (generateRandomBytes (fun _ => 5) 16).length = 16 ∧
    importPrivateKey rtBase (exportPrivateKey rtBase (fun _ => 5) () (some "password"))
      (some "password") = .ok () ∧
    ∀ W', W' ≠ "password" →
      importPrivateKey rtBase (exportPrivateKey rtBase (fun _ => 5) () (some "password"))
        (some W') =
      .error (mkError "Failed to decrypt private key: invalid password or corrupted key") :=
  c8_password_roundtrip rtBase (fun _ => 5) () "password"
    (by decide)
    (by
      intro dk iv x hx b hb
      rcases List.mem_cons.mp hb with rfl | hbx
      · cases dk <;> decide
      · exact hx _ hbx)
    (by intro dk iv x; cases dk <;> rfl)
    (by
      intro dk' dk iv x hne
      cases dk <;> cases dk'
      · exact absurd rfl hne
      · exact ⟨"bad", rfl⟩
      · exact ⟨"bad", rfl⟩
      · exact absurd rfl hne)
    (by
      intro W' salt hne
      have h1 : (W' == "password") = false := beq_eq_false_iff_ne.mpr hne
      show (W' == "password") ≠ ("password" == "password")
      rw [h1]
      decide)
    rfl
